import Mathlib

/-!
Verification of the miriad-code agent runtime core against its
natural-language specification.

The development shallowly embeds the parts of the TypeScript sources that the
claims refer to:

* `src/storage/ltm.ts` — the long-term-memory store with CAS mutations
  (`LTM` namespace).  The SQLite table is modelled as a `List LTMEntry`; a
  drizzle `update ... set ... where ... returning` statement is modelled by
  mapping the row transformer over the rows matching the `where` predicate.
* `src/temporal/compaction-agent.ts` and `src/temporal/summary.ts` — the
  agentic compaction loop (`Compaction` namespace).  The language model is an
  oracle: a function from the call index to the model response.
* `src/agent/index.ts` — the system-prompt assembly (`AgentPrompt` namespace).
* the provider module (tool-call repair and execution-error containment,
  `Provider` namespace).
* `src/jsonrpc/index.ts` and the JSON-RPC listener — queueing, mid-turn
  injection and the run gate (`Server` namespace).

Machine integers do not occur (all counters are unbounded JS numbers used as
naturals); JS string comparison on ULID ids is modelled by the executable
code-unit-lexicographic functions `jsLt`, `jsGt` and `jsLe`.
-/

namespace LTM

/-- A row of the `ltm_entries` table (src/storage/schema.ts as used by
src/storage/ltm.ts).  `tags` and `links` are stored as JSON arrays of strings
in the database; they are modelled as `List String`. -/
structure LTMEntry where
  slug : String
  parentSlug : Option String
  path : String
  title : String
  body : String
  tags : List String
  links : List String
  version : Nat
  createdBy : String
  updatedBy : String
  archivedAt : Option String
  createdAt : String
  updatedAt : String
deriving DecidableEq, Repr

/-- The error kinds thrown by the CAS mutations of src/storage/ltm.ts:
`LTM entry not found`, `LTM entry is archived` and `ConflictError`. -/
inductive LTMError where
  | notFound (slug : String)
  | archived (slug : String)
  | conflict (slug : String) (expectedVersion actualVersion : Nat)
deriving DecidableEq, Repr

/-- The `where` clause shared by `update`, `updateTags` and `archive`:
`eq(slug) ∧ eq(version, expectedVersion) ∧ isNull(archivedAt)`. -/
def casWhere (slug : String) (expectedVersion : Nat) (r : LTMEntry) : Bool :=
  r.slug == slug && r.version == expectedVersion && r.archivedAt.isNone

/-- A drizzle `db.update(ltmEntries).set(f).where(casWhere).returning()`:
returns the new table and the list of updated rows. -/
def casUpdate (db : List LTMEntry) (slug : String) (expectedVersion : Nat)
    (f : LTMEntry → LTMEntry) : List LTMEntry × List LTMEntry :=
  ((db.map fun r => if casWhere slug expectedVersion r then f r else r),
   (db.filter (casWhere slug expectedVersion)).map f)

/-- The zero-row fallback shared by all three CAS mutations (ltm.ts lines
190-207, 237-253, 277-293): re-read the row by slug to produce the precise
error kind. -/
def readError (db : List LTMEntry) (slug : String) (expectedVersion : Nat) :
    LTMError :=
  match db.filter (fun r => r.slug == slug) with
  | [] => .notFound slug
  | c :: _ =>
      if c.archivedAt.isSome then .archived slug
      else .conflict slug expectedVersion c.version

/-- The `set` object of `update` (ltm.ts lines 175-180). -/
def applyUpdate (body : String) (expectedVersion : Nat)
    (updatedBy now : String) (r : LTMEntry) : LTMEntry :=
  { r with body := body, version := expectedVersion + 1,
           updatedBy := updatedBy, updatedAt := now }

/-- The `set` object of `updateTags` (ltm.ts lines 222-227). -/
def applyUpdateTags (tags : List String) (expectedVersion : Nat)
    (updatedBy now : String) (r : LTMEntry) : LTMEntry :=
  { r with tags := tags, version := expectedVersion + 1,
           updatedBy := updatedBy, updatedAt := now }

/-- The `set` object of `archive` (ltm.ts lines 263-267). -/
def applyArchive (expectedVersion : Nat) (now : String) (r : LTMEntry) :
    LTMEntry :=
  { r with archivedAt := some now, version := expectedVersion + 1,
           updatedAt := now }

/-- `update(slug, body, expectedVersion, updatedBy)` (ltm.ts lines 164-210).
On the error path the table is returned unchanged (the conditional update
matched no row and the function throws after reads only). -/
def update (db : List LTMEntry) (slug body : String) (expectedVersion : Nat)
    (updatedBy now : String) : List LTMEntry × Except LTMError LTMEntry :=
  let (newDb, result) :=
    casUpdate db slug expectedVersion (applyUpdate body expectedVersion updatedBy now)
  match result with
  | [] => (db, .error (readError db slug expectedVersion))
  | e :: _ => (newDb, .ok e)

/-- `updateTags(slug, tags, expectedVersion, updatedBy)` (ltm.ts lines
212-256). -/
def updateTags (db : List LTMEntry) (slug : String) (tags : List String)
    (expectedVersion : Nat) (updatedBy now : String) :
    List LTMEntry × Except LTMError LTMEntry :=
  let (newDb, result) :=
    casUpdate db slug expectedVersion (applyUpdateTags tags expectedVersion updatedBy now)
  match result with
  | [] => (db, .error (readError db slug expectedVersion))
  | e :: _ => (newDb, .ok e)

/-- `archive(slug, expectedVersion)` (ltm.ts lines 258-294). -/
def archive (db : List LTMEntry) (slug : String) (expectedVersion : Nat)
    (now : String) : List LTMEntry × Except LTMError Unit :=
  let (newDb, result) :=
    casUpdate db slug expectedVersion (applyArchive expectedVersion now)
  match result with
  | [] => (db, .error (readError db slug expectedVersion))
  | _ :: _ => (newDb, .ok ())

/-- `read(slug)` (ltm.ts lines 154-162): select by slug with
`isNull(archivedAt)`, limit 1. -/
def read (db : List LTMEntry) (slug : String) : Option LTMEntry :=
  (db.filter fun r => r.slug == slug && r.archivedAt.isNone).head?

end LTM

/-- JS string comparison `a < b` on character lists: lexicographic by code
unit.  (The ids compared in the sources are ASCII ULIDs, for which code-unit
order coincides with code-point order.) -/
def jsStrLtL : List Char → List Char → Bool
  | [], [] => false
  | [], _ :: _ => true
  | _ :: _, [] => false
  | a :: as, b :: bs =>
      if a < b then true else if b < a then false else jsStrLtL as bs

/-- JS `a < b` on strings. -/
def jsLt (a b : String) : Bool := jsStrLtL a.data b.data

/-- JS `a > b` on strings. -/
def jsGt (a b : String) : Bool := jsStrLtL b.data a.data

/-- JS `a <= b` on strings. -/
def jsLe (a b : String) : Bool := !(jsStrLtL b.data a.data)

/-- Insertion of an element into a list sorted by the boolean relation `le`;
used to model the `orderBy` clauses and the JS `Array.sort`. -/
def insertBy {α : Type} (le : α → α → Bool) (a : α) : List α → List α
  | [] => [a]
  | b :: t => if le a b then a :: b :: t else b :: insertBy le a t

/-- Insertion sort by the boolean relation `le`. -/
def sortBy {α : Type} (le : α → α → Bool) : List α → List α
  | [] => []
  | a :: t => insertBy le a (sortBy le t)

/-- SQL `LIKE` semantics on character lists, as SQLite evaluates the pattern
produced by `globToLike`: `%` matches any sequence, `_` any single character,
other characters match ASCII-case-insensitively. -/
def likeMatchL : List Char → List Char → Bool
  | [], [] => true
  | [], _ :: _ => false
  | '%' :: ps, [] => likeMatchL ps []
  | '%' :: ps, c :: t => likeMatchL ps (c :: t) || likeMatchL ('%' :: ps) t
  | '_' :: _, [] => false
  | '_' :: ps, _ :: t => likeMatchL ps t
  | _ :: _, [] => false
  | p :: ps, c :: t => (p.toLower == c.toLower) && likeMatchL ps t
termination_by p s => 2 * p.length + s.length

/-- `like(column, pattern)` on strings. -/
def sqlLike (s pattern : String) : Bool :=
  likeMatchL pattern.data s.data

/-- JS `String.prototype.includes`, used by `search` for keyword matching. -/
def strIncludes (s pat : String) : Bool :=
  s.data.tails.any fun t => pat.data.isPrefixOf t

namespace LTM

/-- `globToLike` (ltm.ts lines 81-94): normalize a leading `/`, then replace
`**` and `*` by the SQL wildcard `%`. -/
def globToLike (pattern : String) : String :=
  let normalized := if pattern.startsWith "/" then pattern else "/" ++ pattern
  (normalized.replace "**" "%").replace "*" "%"

/-- The depth filter of `glob` (ltm.ts lines 309-314):
`path.split("/").length - 1 <= maxDepth`. -/
def depthOk (maxDepth : Option Nat) (r : LTMEntry) : Bool :=
  match maxDepth with
  | none => true
  | some d => (r.path.splitOn "/").length - 1 ≤ d

/-- `glob(pattern, maxDepth?)` (ltm.ts lines 296-317): LIKE-match on the
materialized path, exclude archived, order by path, then apply the optional
depth filter. -/
def glob (db : List LTMEntry) (pattern : String) (maxDepth : Option Nat) :
    List LTMEntry :=
  let likePattern := globToLike pattern
  let results :=
    sortBy (fun a b => jsLe a.path b.path)
      (db.filter fun r => sqlLike r.path likePattern && r.archivedAt.isNone)
  results.filter (depthOk maxDepth)

/-- One `search` hit: the entry together with its score. -/
structure LTMSearchResult where
  entry : LTMEntry
  score : Nat
deriving DecidableEq, Repr

/-- The per-entry body of the `search` scan loop (ltm.ts lines 337-352):
keep an entry whose path starts with the prefix and whose lowercased title or
body contains the lowercased query, scored `2 * titleMatch + 1 * bodyMatch`. -/
def searchHit (queryLower : String) (pathPrefix : Option String)
    (e : LTMEntry) : Option LTMSearchResult :=
  if (match pathPrefix with
      | some p => e.path.startsWith p
      | none => true) then
    let titleMatch := strIncludes e.title.toLower queryLower
    let bodyMatch := strIncludes e.body.toLower queryLower
    if titleMatch || bodyMatch then
      some ⟨e, (if titleMatch then 2 else 0) + (if bodyMatch then 1 else 0)⟩
    else none
  else none

/-- `search(query, pathPrefix?)` (ltm.ts lines 319-356): scan non-archived
rows, keep the scored hits, sort by score descending. -/
def search (db : List LTMEntry) (query : String) (pathPrefix : Option String) :
    List LTMSearchResult :=
  let results := db.filter fun r => r.archivedAt.isNone
  let hits := results.filterMap (searchHit query.toLower pathPrefix)
  sortBy (fun a b => a.score ≥ b.score) hits

/-- `getChildren(parentSlug)` (ltm.ts lines 358-380): rows with matching
parent (or `parentSlug IS NULL` at the root), excluding archived, ordered by
slug. -/
def getChildren (db : List LTMEntry) (parentSlug : Option String) :
    List LTMEntry :=
  match parentSlug with
  | none =>
      sortBy (fun a b => jsLe a.slug b.slug)
        (db.filter fun r => r.parentSlug.isNone && r.archivedAt.isNone)
  | some p =>
      sortBy (fun a b => jsLe a.slug b.slug)
        (db.filter fun r => r.parentSlug == some p && r.archivedAt.isNone)

end LTM

namespace Compaction

/-- A row of `temporal_messages` (src/storage/schema.ts): stable lexicographic
id, kind, content, token estimate, creation timestamp. -/
structure TemporalMessage where
  id : String
  type : String
  content : String
  tokenEstimate : Nat
  createdAt : String
deriving DecidableEq, Repr

/-- A row of `temporal_summaries`: order number, inclusive start/end ids,
narrative, key observations and tags (JSON arrays in the database, modelled as
lists), token estimate. -/
structure TemporalSummary where
  id : String
  orderNum : Nat
  startId : String
  endId : String
  narrative : String
  keyObservations : List String
  tags : List String
  tokenEstimate : Nat
  createdAt : String
deriving DecidableEq, Repr

/-- The temporal store: messages and summaries, each ascending by id. -/
structure TemporalState where
  messages : List TemporalMessage
  summaries : List TemporalSummary
deriving DecidableEq, Repr

/-- `Math.ceil(n / 4)` on a natural character count. -/
def ceilDiv4 (n : Nat) : Nat := (n + 3) / 4

/-- `estimateSummaryTokens` (src/temporal/summary.ts lines 23-32):
ceil(narrative/4) plus the sum of ceil(observation/4) plus 2 per tag. -/
def estimateSummaryTokens (narrative : String) (keyObservations : List String)
    (tags : List String) : Nat :=
  ceilDiv4 narrative.length
    + keyObservations.foldl (fun sum obs => sum + ceilDiv4 obs.length) 0
    + tags.length * 2

/-- `collectValidIds` (compaction-agent.ts lines 253-271): the start and end
ids of all summaries together with all message ids.  Membership in the list
models membership in the JS `Set`. -/
def collectValidIds (messages : List TemporalMessage)
    (summaries : List TemporalSummary) : List String :=
  summaries.foldr (fun s acc => s.startId :: s.endId :: acc)
    (messages.map (·.id))

/-- A tool call issued by the compaction model, after the AI-SDK schema check:
`create_summary`, `finish_compaction`, or an unknown tool name. -/
inductive CompactionToolCall where
  | createSummary (startId endId narrative : String)
      (keyObservations : List String)
  | finishCompaction (reason : String)
  | unknown (name : String)
deriving DecidableEq, Repr

/-- The result triple of `executeCompactionTool`. -/
structure ToolExecResult where
  output : String
  done : Bool
  summaryCreated : Bool
deriving DecidableEq, Repr

/-- The filter for subsumed summaries (compaction-agent.ts lines 185-187):
existing summaries whose inclusive range lies inside the new range.  JS string
comparison on ids is the lexicographic order on `String`. -/
def subsumedSummaries (summaries : List TemporalSummary)
    (startId endId : String) : List TemporalSummary :=
  summaries.filter fun s => jsLe startId s.startId && jsLe s.endId endId

/-- `maxSubsumedOrder` (compaction-agent.ts lines 188-190): the maximum order
among the subsumed summaries, 0 when none is subsumed. -/
def maxSubsumedOrder (summaries : List TemporalSummary)
    (startId endId : String) : Nat :=
  ((subsumedSummaries summaries startId endId).map (·.orderNum)).foldl max 0

/-- `executeCompactionTool` (compaction-agent.ts lines 144-247).  `newId` is
the identifier the id service would mint for a created summary and `now` the
current timestamp; both are consumed only on a successful insert.  The new
store is returned alongside the result triple. -/
def executeCompactionTool (call : CompactionToolCall) (state : TemporalState)
    (validIds : List String) (newId now : String) :
    ToolExecResult × TemporalState :=
  match call with
  | .createSummary startId endId narrative keyObservations =>
      if startId ∉ validIds then
        (⟨"Error: startId \"" ++ startId
            ++ "\" is not a visible ID. Use only IDs shown in the conversation history.",
          false, false⟩, state)
      else if endId ∉ validIds then
        (⟨"Error: endId \"" ++ endId
            ++ "\" is not a visible ID. Use only IDs shown in the conversation history.",
          false, false⟩, state)
      else if jsGt startId endId then
        (⟨"Error: startId must be <= endId (got " ++ startId ++ " > " ++ endId ++ ")",
          false, false⟩, state)
      else
        let newOrder := maxSubsumedOrder state.summaries startId endId + 1
        let summary : TemporalSummary :=
          { id := newId, orderNum := newOrder, startId := startId,
            endId := endId, narrative := narrative,
            keyObservations := keyObservations, tags := [],
            tokenEstimate := estimateSummaryTokens narrative keyObservations [],
            createdAt := now }
        (⟨"Created order-" ++ toString newOrder ++ " summary covering "
            ++ startId ++ " to " ++ endId ++ " (~"
            ++ toString summary.tokenEstimate ++ " tokens).",
          false, true⟩,
         { state with summaries := state.summaries ++ [summary] })
  | .finishCompaction reason =>
      (⟨"Compaction complete: " ++ reason, true, false⟩, state)
  | .unknown name =>
      (⟨"Unknown tool: " ++ name, false, false⟩, state)

/-- Modelled from the spec: the temporal storage implementation that defines
`estimateUncompactedTokens` is not among the provided sources (only its
callers in compaction-agent.ts are).  Following section 4.2, a summary is
active when no other summary covers it (strictly larger range, or equal range
with higher order); a message is covered when its id falls in the inclusive
range of an active summary; the estimate is the sum of token estimates of
uncovered messages plus those of the active summaries.  This helper decides
whether `t` covers `s`. -/
def summaryCovers (t s : TemporalSummary) : Bool :=
  jsLe t.startId s.startId && jsLe s.endId t.endId
    && (t.startId != s.startId || t.endId != s.endId || s.orderNum < t.orderNum)

/-- Modelled from the spec: an active summary is one not covered by any other
summary in the store (section 4.2, the maximal non-overlapping highest-order
set). -/
def activeSummary (summaries : List TemporalSummary) (s : TemporalSummary) :
    Bool :=
  !(summaries.any fun t => summaryCovers t s)

/-- Modelled from the spec: a message is covered when an active summary range
contains its id (section 4.2). -/
def messageCovered (summaries : List TemporalSummary) (m : TemporalMessage) :
    Bool :=
  summaries.any fun s =>
    activeSummary summaries s && jsLe s.startId m.id && jsLe m.id s.endId

/-- Modelled from the spec: `estimateUncompactedTokens` (section 4.2): token
estimates of messages not covered by the active summaries, plus the token
estimates of the active summaries. -/
def estimateUncompactedTokens (state : TemporalState) : Nat :=
  ((state.messages.filter fun m => !(messageCovered state.summaries m)).map
      (·.tokenEstimate)).sum
    + ((state.summaries.filter (activeSummary state.summaries)).map
        (·.tokenEstimate)).sum

end Compaction

namespace Compaction

/-- `MAX_COMPACTION_TURNS` (compaction-agent.ts line 33). -/
def MAX_COMPACTION_TURNS : Nat := 10

/-- `maxInnerTurns` (compaction-agent.ts line 353). -/
def maxInnerTurns : Nat := 5

/-- One response of `Provider.generate` as consumed by the compaction loop:
optional text, tool calls, and the usage counters added to the running
totals. -/
structure ModelResponse where
  text : Option String
  toolCalls : List CompactionToolCall
  promptTokens : Nat
  completionTokens : Nat

/-- The mutable context threaded through `runCompaction`: the temporal store,
the number of `Provider.generate` calls made so far, the identifier supply for
newly minted summary ids, the usage totals, and the count of created
summaries. -/
structure LoopState where
  temporal : TemporalState
  calls : Nat
  ids : List String
  inputTokens : Nat
  outputTokens : Nat
  created : Nat
deriving DecidableEq, Repr

/-- The `for (const toolCall of response.toolCalls)` body of the inner loop
(compaction-agent.ts lines 379-408): execute each call in response order,
count created summaries, and remember whether `finish_compaction` was seen
(`turnDone`).  The id supply advances only when a summary is inserted, as
`Identifier.ascending` is called only on the insert path. -/
def processCalls (validIds : List String) :
    List CompactionToolCall → TemporalState → List String → Nat → Bool →
    TemporalState × List String × Nat × Bool
  | [], st, ids, created, done => (st, ids, created, done)
  | c :: rest, st, ids, created, done =>
      let (res, st') :=
        executeCompactionTool c st validIds (ids.headD "summary_fallback") "now"
      processCalls validIds rest st'
        (if res.summaryCreated then ids.tail else ids)
        (created + (if res.summaryCreated then 1 else 0))
        (done || res.done)

/-- The inner per-turn loop `while (!turnDone && innerTurns < maxInnerTurns)`
(compaction-agent.ts lines 355-422), by recursion on the remaining inner
iterations.  Returns the new context together with the number of iterations
performed (the final value of `innerTurns`).  A response without tool calls
ends the turn; the assistant messages appended to the working conversation
feed only the model oracle and are not tracked. -/
def innerLoop (script : Nat → ModelResponse) (validIds : List String) :
    Nat → LoopState → LoopState × Nat
  | 0, ls => (ls, 0)
  | fuel + 1, ls =>
      let resp := script ls.calls
      let ls1 := { ls with
        calls := ls.calls + 1,
        inputTokens := ls.inputTokens + resp.promptTokens,
        outputTokens := ls.outputTokens + resp.completionTokens }
      match resp.toolCalls with
      | [] => (ls1, 1)
      | c :: cs =>
          let (st, ids, created, done) :=
            processCalls validIds (c :: cs) ls1.temporal ls1.ids 0 false
          let ls2 := { ls1 with
            temporal := st, ids := ids, created := ls1.created + created }
          if done then (ls2, 1)
          else
            let (ls3, n) := innerLoop script validIds fuel ls2
            (ls3, n + 1)

/-- The outer loop `for (let turn = 0; turn < MAX_COMPACTION_TURNS; turn++)`
(compaction-agent.ts lines 315-423), by recursion on the remaining turns.
Each iteration first counts itself (`result.turnsUsed++`), breaks when the
current estimate is at or below the target, otherwise recomputes the valid
ids from the refreshed store and runs one inner turn.  Returns the final
context and the number of turns used. -/
def outerLoop (cfg : Nat) (script : Nat → ModelResponse) :
    Nat → LoopState → LoopState × Nat
  | 0, ls => (ls, 0)
  | fuel + 1, ls =>
      if estimateUncompactedTokens ls.temporal ≤ cfg then (ls, 1)
      else
        let validIds :=
          collectValidIds ls.temporal.messages ls.temporal.summaries
        let (ls1, _) := innerLoop script validIds maxInnerTurns ls
        let (ls2, n) := outerLoop cfg script fuel ls1
        (ls2, n + 1)

/-- `CompactionConfig` (compaction-agent.ts lines 57-62). -/
structure CompactionConfig where
  compactionThreshold : Nat
  compactionTarget : Nat
deriving DecidableEq, Repr

/-- `CompactionResult` (compaction-agent.ts lines 38-52), with the usage
record flattened into the two counters. -/
structure CompactionResult where
  summariesCreated : Nat
  tokensBefore : Nat
  tokensAfter : Nat
  turnsUsed : Nat
  inputTokens : Nat
  outputTokens : Nat
deriving DecidableEq, Repr

/-- `runCompaction` (compaction-agent.ts lines 276-436).  `script` is the
model oracle (the response to the n-th `Provider.generate` call of this run)
and `ids` the identifier supply.  Returns the result record together with the
final context, whose `calls` field counts the model calls made. -/
def runCompaction (cfg : CompactionConfig) (state : TemporalState)
    (script : Nat → ModelResponse) (ids : List String) :
    CompactionResult × LoopState :=
  let tokensBefore := estimateUncompactedTokens state
  let ls0 : LoopState := ⟨state, 0, ids, 0, 0, 0⟩
  if tokensBefore ≤ cfg.compactionTarget then
    (⟨0, tokensBefore, tokensBefore, 0, 0, 0⟩, ls0)
  else
    let (ls, turns) :=
      outerLoop cfg.compactionTarget script MAX_COMPACTION_TURNS ls0
    (⟨ls.created, tokensBefore, estimateUncompactedTokens ls.temporal, turns,
      ls.inputTokens, ls.outputTokens⟩, ls)

end Compaction

namespace AgentPrompt

open Compaction (TemporalMessage)

/-- The role header of a rendered history line (src/agent/index.ts lines
118-121). -/
def roleName (type : String) : String :=
  if type == "user" then "User"
  else if type == "assistant" then "Assistant"
  else if type == "tool_call" then "Tool Call"
  else if type == "tool_result" then "Tool Result"
  else type

/-- The content truncation of a rendered history line (src/agent/index.ts
lines 123-126): cut at 500 characters and append an ellipsis. -/
def truncateContent (content : String) : String :=
  if content.length > 500 then content.take 500 ++ "..." else content

/-- The selection loop of `buildSystemPrompt` (src/agent/index.ts lines
76-84) applied to the already reversed message list: walk from the newest
message, stop at the first message that would push the accumulated token
estimate over the budget. -/
def selectRecentAux (temporalBudget : Nat) :
    List TemporalMessage → Nat → List TemporalMessage
  | [], _ => []
  | m :: rest, temporalTokens =>
      if temporalTokens + m.tokenEstimate > temporalBudget then []
      else m :: selectRecentAux temporalBudget rest (temporalTokens + m.tokenEstimate)

/-- The selected recent messages, in chronological order (the source builds
them with `unshift`, which this models by reversing the newest-first
selection). -/
def selectRecent (allMessages : List TemporalMessage) (temporalBudget : Nat) :
    List TemporalMessage :=
  (selectRecentAux temporalBudget allMessages.reverse 0).reverse

/-- One rendered history line (src/agent/index.ts line 128). -/
def historyLine (m : TemporalMessage) : String :=
  "[" ++ roleName m.type ++ "]: " ++ truncateContent m.content ++ "\n"

/-- The rendered lines of all selected messages. -/
def historyLines (msgs : List TemporalMessage) : String :=
  msgs.foldl (fun acc m => acc ++ historyLine m) ""

/-- The `<conversation_history>` section of the system prompt
(src/agent/index.ts lines 112-133): empty when no message fits the budget,
otherwise the header, the rendered lines and the closing tag. -/
def conversationHistorySection (allMessages : List TemporalMessage)
    (temporalBudget : Nat) : String :=
  let selected := selectRecent allMessages temporalBudget
  if selected.isEmpty then ""
  else
    "<conversation_history>\nThe following is your memory of previous interactions with this user:\n\n"
      ++ historyLines selected ++ "</conversation_history>\n\n"

end AgentPrompt

namespace Provider

/-- `INVALID_TOOL_CALL` (provider module line 288). -/
def INVALID_TOOL_CALL : String := "__invalid_tool_call__"

/-- The argument record of the internal error tool.  The source packs this
record into the repaired call as a JSON string (`JSON.stringify`); the
embedding keeps it structured, with `args` already being the JSON rendering
of the attempted arguments. -/
structure InvalidCallArgs where
  toolName : String
  args : String
  error : String
deriving DecidableEq, Repr

/-- A repaired tool call, as returned by the repair function: the substituted
tool name, the preserved call id, and the packed arguments. -/
structure RepairedCall where
  toolName : String
  toolCallId : String
  args : InvalidCallArgs
deriving DecidableEq, Repr

/-- `createToolCallRepairFunction` (provider module lines 323-350): on a
schema-validation failure or an unknown tool name, substitute a call to the
internal error tool, preserving the call id and packing the attempted tool
name, the attempted arguments as JSON and the validation error message. -/
def repairToolCall (toolName toolCallId argsJson errorMessage : String) :
    RepairedCall :=
  ⟨INVALID_TOOL_CALL, toolCallId, ⟨toolName, argsJson, errorMessage⟩⟩

/-- The `execute` of `createInvalidToolCallTool` (provider module lines
294-314): a total function returning the explanatory error text, which the
loop treats as an ordinary tool result. -/
def invalidToolCallExecute (a : InvalidCallArgs) : String :=
  "Error: Invalid tool call to \"" ++ a.toolName
    ++ "\"\n\nYou provided these arguments:\n" ++ a.args
    ++ "\n\nValidation error:\n" ++ a.error
    ++ "\n\nPlease check the tool parameter schema and try again with correct arguments."

/-- The execute wrapper of `prepareTools` (provider module lines 418-434): a
tool execution modelled as `Except` (an exception or a result string) is
turned into a plain result string. -/
def wrapToolExecute (name : String) (outcome : Except String String) : String :=
  match outcome with
  | .ok r => r
  | .error message => "Error executing tool \"" ++ name ++ "\": " ++ message

end Provider

namespace AgentLoop

/-- The tool-dispatch `try`/`catch` of `runAgent` (src/agent/index.ts lines
401-415): a throwing `executeTool` is converted to the tool-result string
`Error: <message>`. -/
def dispatchOutcome (outcome : Except String String) : String :=
  match outcome with
  | .ok r => r
  | .error message => "Error: " ++ message

/-- The per-response dispatch loop of `runAgent` (src/agent/index.ts lines
376-439): every tool call produces exactly one tool-result part; no outcome
terminates the turn. -/
def dispatchToolCalls (calls : List (String × Except String String)) :
    List (String × String) :=
  calls.map fun c => (c.1, dispatchOutcome c.2)

end AgentLoop

namespace Server

/-- A queued user message, reduced to its prompt content
(`getPromptFromUserMessage`). -/
abbrev UserMsg := String

/-- `messageQueue.push` in `handleUserMessage` (src/jsonrpc/index.ts line
128): a message arriving while a turn runs is appended, never rejected. -/
def enqueueMessage (q : List UserMsg) (m : UserMsg) : List UserMsg :=
  q ++ [m]

/-- `drainQueueForInjection` (src/jsonrpc/index.ts lines 233-254): on a
non-empty queue, splice out all queued messages and return them with their
contents joined by a blank line; the queue becomes empty. -/
def drainQueueForInjection (q : List UserMsg) :
    Option (List UserMsg × String) × List UserMsg :=
  if q.isEmpty then (none, q)
  else (some (q, String.intercalate "\n\n" q), [])

/-- The arrivals-and-boundaries trace of one running turn.  `phases` lists,
for each model-call boundary the turn reaches, the user messages that arrived
since the previous boundary; each boundary then calls
`drainQueueForInjection` through `onBeforeTurn`.  Returns the injections (in
emission order, each the drained queue at one boundary) and the queue left
when the turn ends. -/
def runningTurn : List (List UserMsg) → List UserMsg →
    List (List UserMsg) × List UserMsg
  | [], q => ([], q)
  | batch :: rest, q =>
      let q1 := batch.foldl enqueueMessage q
      match drainQueueForInjection q1 with
      | (some (drained, _), q2) =>
          let (is, rem) := runningTurn rest q2
          (drained :: is, rem)
      | (none, q2) =>
          let (is, rem) := runningTurn rest q2
          (is, rem)

/-- `processQueue` (src/jsonrpc/index.ts lines 210-227): after the turn, the
remaining queue is shifted one message at a time, each becoming the next
turn, in FIFO order. -/
def processQueue : List UserMsg → List UserMsg
  | [] => []
  | m :: rest => m :: processQueue rest

/-- `ErrorCodes.ALREADY_RUNNING` (jsonrpc protocol module). -/
def ALREADY_RUNNING : Int := -32001

/-- The outcome of the `handleRun` gate of the JSON-RPC listener. -/
inductive HandleRunOutcome where
  | rejected (code : Int) (message : String)
  | started
deriving DecidableEq, Repr

/-- The guard at the top of `JsonRpcServer.handleRun` (JSON-RPC listener
lines 125-134): a `run` request arriving while `currentRequest` is set is
answered with an `ALREADY_RUNNING` error response and not executed. -/
def handleRunGate (currentRequest : Option String) : HandleRunOutcome :=
  if currentRequest.isSome then
    .rejected ALREADY_RUNNING "A request is already running"
  else .started

end Server

/-! ### Helper lemmas -/

theorem filter_and_single {α : Type} (p q : α → Bool) (a : α) :
    ∀ l : List α, l.filter p = [a] →
      l.filter (fun x => p x && q x) = if q a then [a] else [] := by
  intro l
  induction l with
  | nil => intro h; simp at h
  | cons x t ih =>
      intro h
      by_cases hx : p x = true
      · have hcons : x :: t.filter p = [a] := by
          simpa [List.filter_cons, hx] using h
        have hxa : x = a := by injection hcons
        have ht : t.filter p = [] := by injection hcons
        subst hxa
        have ht' : t.filter (fun x => p x && q x) = [] := by
          rw [List.filter_eq_nil_iff] at ht ⊢
          intro b hb hcon
          rw [Bool.and_eq_true] at hcon
          exact ht b hb hcon.1
        by_cases hq : q x = true
        · simp [List.filter_cons, hx, hq, ht']
        · rw [Bool.not_eq_true] at hq
          simp [List.filter_cons, hx, hq, ht']
      · rw [Bool.not_eq_true] at hx
        have ht : t.filter p = [a] := by simpa [List.filter_cons, hx] using h
        simpa [List.filter_cons, hx] using ih ht

theorem filter_map_invariant {α : Type} (p : α → Bool) (g : α → α)
    (hg : ∀ x, (p (g x)) = p x) :
    ∀ l : List α, (l.map g).filter p = (l.filter p).map g := by
  intro l
  induction l with
  | nil => rfl
  | cons x t ih =>
      by_cases hx : p x = true
      · simp [List.filter_cons, hg, hx, ih]
      · rw [Bool.not_eq_true] at hx
        simp [List.filter_cons, hg, hx, ih]

theorem filter_sub_nil {α : Type} (p q : α → Bool)
    (himp : ∀ x, q x = true → p x = true) :
    ∀ l : List α, l.filter p = [] → l.filter q = [] := by
  intro l h
  rw [List.filter_eq_nil_iff] at h ⊢
  intro b hb hq
  exact h b hb (himp b hq)

theorem mem_single_filter {α : Type} (p : α → Bool) (l : List α) (a : α)
    (h : l.filter p = [a]) : p a = true := by
  have ha : a ∈ l.filter p := by rw [h]; exact List.mem_singleton.mpr rfl
  exact (List.mem_filter.mp ha).2

theorem mem_insertBy {α : Type} (le : α → α → Bool) (a x : α) :
    ∀ l : List α, x ∈ insertBy le a l ↔ x = a ∨ x ∈ l := by
  intro l
  induction l with
  | nil => simp [insertBy]
  | cons b t ih =>
      by_cases h : le a b
      · simp [insertBy, h]
      · simp [insertBy, h, ih]
        tauto

theorem mem_sortBy {α : Type} (le : α → α → Bool) (x : α) :
    ∀ l : List α, x ∈ sortBy le l ↔ x ∈ l := by
  intro l
  induction l with
  | nil => simp [sortBy]
  | cons a t ih => simp [sortBy, mem_insertBy, ih]

namespace LTM

theorem casWhere_decomp (slug : String) (expectedVersion : Nat) (r : LTMEntry) :
    casWhere slug expectedVersion r =
      ((r.slug == slug) && ((r.version == expectedVersion) && r.archivedAt.isNone)) := by
  simp [casWhere, Bool.and_assoc]

theorem cas_filter (db : List LTMEntry) (slug : String) (expectedVersion : Nat)
    (e : LTMEntry) (h : db.filter (fun r => r.slug == slug) = [e]) :
    db.filter (casWhere slug expectedVersion) =
      if (e.version == expectedVersion) && e.archivedAt.isNone then [e] else [] := by
  have hc : db.filter (casWhere slug expectedVersion) =
      db.filter (fun r =>
        (r.slug == slug) && ((r.version == expectedVersion) && r.archivedAt.isNone)) :=
    List.filter_congr fun x _ => casWhere_decomp slug expectedVersion x
  rw [hc]
  exact filter_and_single _ _ _ db h

theorem cas_map_filter (db : List LTMEntry) (slug : String)
    (expectedVersion : Nat) (e : LTMEntry) (f : LTMEntry → LTMEntry)
    (hf : ∀ r, (f r).slug = r.slug)
    (h : db.filter (fun r => r.slug == slug) = [e]) :
    ((db.map fun r => if casWhere slug expectedVersion r then f r else r).filter
        (fun r => r.slug == slug)) =
      [if casWhere slug expectedVersion e then f e else e] := by
  have hg : ∀ r : LTMEntry,
      (((if casWhere slug expectedVersion r then f r else r).slug == slug)) =
        ((r.slug == slug)) := by
    intro r
    by_cases hc : casWhere slug expectedVersion r <;> simp [hc, hf]
  rw [filter_map_invariant (fun r => r.slug == slug) _ hg db, h]
  rfl

theorem casWhere_of_success (db : List LTMEntry) (slug : String)
    (expectedVersion : Nat) (e : LTMEntry)
    (h : db.filter (fun r => r.slug == slug) = [e])
    (harch : e.archivedAt = none) (hver : e.version = expectedVersion) :
    casWhere slug expectedVersion e = true := by
  have hslug := mem_single_filter _ db e h
  simp [casWhere, hslug, hver, harch]

theorem casUpdate_matched (db : List LTMEntry) (slug : String)
    (expectedVersion : Nat) (e : LTMEntry) (f : LTMEntry → LTMEntry)
    (hf : ∀ r, (f r).slug = r.slug)
    (h : db.filter (fun r => r.slug == slug) = [e])
    (harch : e.archivedAt = none) (hver : e.version = expectedVersion) :
    (casUpdate db slug expectedVersion f).2 = [f e] ∧
      (casUpdate db slug expectedVersion f).1.filter (fun r => r.slug == slug) =
        [f e] := by
  have hcw := casWhere_of_success db slug expectedVersion e h harch hver
  constructor
  · show (db.filter (casWhere slug expectedVersion)).map f = [f e]
    rw [cas_filter db slug expectedVersion e h]
    simp [hver, harch]
  · have := cas_map_filter db slug expectedVersion e f hf h
    rw [hcw] at this
    simpa using this

theorem casUpdate_unmatched (db : List LTMEntry) (slug : String)
    (expectedVersion : Nat) (f : LTMEntry → LTMEntry)
    (h : db.filter (casWhere slug expectedVersion) = []) :
    (casUpdate db slug expectedVersion f).2 = [] := by
  show (db.filter (casWhere slug expectedVersion)).map f = []
  rw [h]
  rfl

theorem cas_filter_nil_of_notFound (db : List LTMEntry) (slug : String)
    (expectedVersion : Nat) (h : db.filter (fun r => r.slug == slug) = []) :
    db.filter (casWhere slug expectedVersion) = [] := by
  refine filter_sub_nil _ _ ?_ db h
  intro x hx
  rw [casWhere_decomp] at hx
  rw [Bool.and_eq_true] at hx
  exact hx.1

theorem readError_notFound (db : List LTMEntry) (slug : String)
    (expectedVersion : Nat) (h : db.filter (fun r => r.slug == slug) = []) :
    readError db slug expectedVersion = .notFound slug := by
  simp [readError, h]

theorem readError_archived (db : List LTMEntry) (slug : String)
    (expectedVersion : Nat) (e : LTMEntry) (t : String)
    (h : db.filter (fun r => r.slug == slug) = [e])
    (harch : e.archivedAt = some t) :
    readError db slug expectedVersion = .archived slug := by
  simp [readError, h, harch]

theorem readError_conflict (db : List LTMEntry) (slug : String)
    (expectedVersion : Nat) (e : LTMEntry)
    (h : db.filter (fun r => r.slug == slug) = [e])
    (harch : e.archivedAt = none) :
    readError db slug expectedVersion = .conflict slug expectedVersion e.version := by
  simp [readError, h, harch]

theorem cas_filter_nil_of_mismatch (db : List LTMEntry) (slug : String)
    (expectedVersion : Nat) (e : LTMEntry)
    (h : db.filter (fun r => r.slug == slug) = [e])
    (hne : ¬((e.version == expectedVersion) && e.archivedAt.isNone) = true) :
    db.filter (casWhere slug expectedVersion) = [] := by
  rw [cas_filter db slug expectedVersion e h]
  simp [hne]

end LTM

namespace LTM

theorem update_error_form (db : List LTMEntry) (slug body : String)
    (expectedVersion : Nat) (updatedBy now : String)
    (h0 : db.filter (casWhere slug expectedVersion) = []) :
    update db slug body expectedVersion updatedBy now =
      (db, .error (readError db slug expectedVersion)) := by
  have h2 := casUpdate_unmatched db slug expectedVersion
    (applyUpdate body expectedVersion updatedBy now) h0
  unfold update
  rcases hc : casUpdate db slug expectedVersion
      (applyUpdate body expectedVersion updatedBy now) with ⟨db', res⟩
  rw [hc] at h2
  simp only at h2
  subst h2
  simp

theorem updateTags_error_form (db : List LTMEntry) (slug : String)
    (tags : List String) (expectedVersion : Nat) (updatedBy now : String)
    (h0 : db.filter (casWhere slug expectedVersion) = []) :
    updateTags db slug tags expectedVersion updatedBy now =
      (db, .error (readError db slug expectedVersion)) := by
  have h2 := casUpdate_unmatched db slug expectedVersion
    (applyUpdateTags tags expectedVersion updatedBy now) h0
  unfold updateTags
  rcases hc : casUpdate db slug expectedVersion
      (applyUpdateTags tags expectedVersion updatedBy now) with ⟨db', res⟩
  rw [hc] at h2
  simp only at h2
  subst h2
  simp

theorem archive_error_form (db : List LTMEntry) (slug : String)
    (expectedVersion : Nat) (now : String)
    (h0 : db.filter (casWhere slug expectedVersion) = []) :
    archive db slug expectedVersion now =
      (db, .error (readError db slug expectedVersion)) := by
  have h2 := casUpdate_unmatched db slug expectedVersion
    (applyArchive expectedVersion now) h0
  unfold archive
  rcases hc : casUpdate db slug expectedVersion
      (applyArchive expectedVersion now) with ⟨db', res⟩
  rw [hc] at h2
  simp only at h2
  subst h2
  simp

theorem update_success_form (db : List LTMEntry) (slug body : String)
    (expectedVersion : Nat) (updatedBy now : String) (e : LTMEntry)
    (h : db.filter (fun r => r.slug == slug) = [e])
    (harch : e.archivedAt = none) (hver : e.version = expectedVersion) :
    (update db slug body expectedVersion updatedBy now).2 =
        .ok (applyUpdate body expectedVersion updatedBy now e) ∧
      (update db slug body expectedVersion updatedBy now).1.filter
          (fun r => r.slug == slug) =
        [applyUpdate body expectedVersion updatedBy now e] := by
  obtain ⟨h2, h1⟩ := casUpdate_matched db slug expectedVersion e
    (applyUpdate body expectedVersion updatedBy now) (fun r => rfl) h harch hver
  unfold update
  rcases hc : casUpdate db slug expectedVersion
      (applyUpdate body expectedVersion updatedBy now) with ⟨db', res⟩
  rw [hc] at h2 h1
  simp only at h2 h1
  subst h2
  simp [h1]

theorem updateTags_success_form (db : List LTMEntry) (slug : String)
    (tags : List String) (expectedVersion : Nat) (updatedBy now : String)
    (e : LTMEntry) (h : db.filter (fun r => r.slug == slug) = [e])
    (harch : e.archivedAt = none) (hver : e.version = expectedVersion) :
    (updateTags db slug tags expectedVersion updatedBy now).2 =
        .ok (applyUpdateTags tags expectedVersion updatedBy now e) ∧
      (updateTags db slug tags expectedVersion updatedBy now).1.filter
          (fun r => r.slug == slug) =
        [applyUpdateTags tags expectedVersion updatedBy now e] := by
  obtain ⟨h2, h1⟩ := casUpdate_matched db slug expectedVersion e
    (applyUpdateTags tags expectedVersion updatedBy now) (fun r => rfl) h harch hver
  unfold updateTags
  rcases hc : casUpdate db slug expectedVersion
      (applyUpdateTags tags expectedVersion updatedBy now) with ⟨db', res⟩
  rw [hc] at h2 h1
  simp only at h2 h1
  subst h2
  simp [h1]

theorem archive_success_form (db : List LTMEntry) (slug : String)
    (expectedVersion : Nat) (now : String) (e : LTMEntry)
    (h : db.filter (fun r => r.slug == slug) = [e])
    (harch : e.archivedAt = none) (hver : e.version = expectedVersion) :
    (archive db slug expectedVersion now).2 = .ok () ∧
      (archive db slug expectedVersion now).1.filter
          (fun r => r.slug == slug) =
        [applyArchive expectedVersion now e] := by
  obtain ⟨h2, h1⟩ := casUpdate_matched db slug expectedVersion e
    (applyArchive expectedVersion now) (fun r => rfl) h harch hver
  unfold archive
  rcases hc : casUpdate db slug expectedVersion
      (applyArchive expectedVersion now) with ⟨db', res⟩
  rw [hc] at h2 h1
  simp only at h2 h1
  subst h2
  simp [h1]

end LTM

/-! ### Claim C1 -/

/-- **C1.** For every LTM mutation (`update`, `updateTags`, `archive`) called
with `expectedVersion` equal to the current version of an existing
non-archived row, the operation succeeds and the post-state row has version
exactly `expectedVersion + 1`; for every call where the precondition fails,
the stored table is unchanged and the caller receives the precise error kind:
`NotFound` when no row with that slug exists, `Archived` when the row has a
non-null `archived_at`, and `Conflict` carrying the expected and the actual
version when only the versions differ. -/
theorem C1_ltm_cas_mutations (db : List LTM.LTMEntry) (slug body : String)
    (tags : List String) (expectedVersion : Nat) (updatedBy now : String) :
    (∀ e : LTM.LTMEntry, db.filter (fun r => r.slug == slug) = [e] →
      e.archivedAt = none → e.version = expectedVersion →
      ((LTM.update db slug body expectedVersion updatedBy now).2 =
          .ok (LTM.applyUpdate body expectedVersion updatedBy now e) ∧
        (LTM.update db slug body expectedVersion updatedBy now).1.filter
            (fun r => r.slug == slug) =
          [LTM.applyUpdate body expectedVersion updatedBy now e] ∧
        (LTM.applyUpdate body expectedVersion updatedBy now e).version =
          expectedVersion + 1) ∧
      ((LTM.updateTags db slug tags expectedVersion updatedBy now).2 =
          .ok (LTM.applyUpdateTags tags expectedVersion updatedBy now e) ∧
        (LTM.updateTags db slug tags expectedVersion updatedBy now).1.filter
            (fun r => r.slug == slug) =
          [LTM.applyUpdateTags tags expectedVersion updatedBy now e] ∧
        (LTM.applyUpdateTags tags expectedVersion updatedBy now e).version =
          expectedVersion + 1) ∧
      ((LTM.archive db slug expectedVersion now).2 = .ok () ∧
        (LTM.archive db slug expectedVersion now).1.filter
            (fun r => r.slug == slug) =
          [LTM.applyArchive expectedVersion now e] ∧
        (LTM.applyArchive expectedVersion now e).version = expectedVersion + 1 ∧
        (LTM.applyArchive expectedVersion now e).archivedAt = some now)) ∧
    (db.filter (fun r => r.slug == slug) = [] →
      LTM.update db slug body expectedVersion updatedBy now =
          (db, .error (.notFound slug)) ∧
      LTM.updateTags db slug tags expectedVersion updatedBy now =
          (db, .error (.notFound slug)) ∧
      LTM.archive db slug expectedVersion now = (db, .error (.notFound slug))) ∧
    (∀ (e : LTM.LTMEntry) (t : String),
      db.filter (fun r => r.slug == slug) = [e] → e.archivedAt = some t →
      LTM.update db slug body expectedVersion updatedBy now =
          (db, .error (.archived slug)) ∧
      LTM.updateTags db slug tags expectedVersion updatedBy now =
          (db, .error (.archived slug)) ∧
      LTM.archive db slug expectedVersion now = (db, .error (.archived slug))) ∧
    (∀ e : LTM.LTMEntry, db.filter (fun r => r.slug == slug) = [e] →
      e.archivedAt = none → e.version ≠ expectedVersion →
      LTM.update db slug body expectedVersion updatedBy now =
          (db, .error (.conflict slug expectedVersion e.version)) ∧
      LTM.updateTags db slug tags expectedVersion updatedBy now =
          (db, .error (.conflict slug expectedVersion e.version)) ∧
      LTM.archive db slug expectedVersion now =
          (db, .error (.conflict slug expectedVersion e.version))) := by
  refine ⟨?_, ?_, ?_, ?_⟩
  · intro e h harch hver
    obtain ⟨hu2, hu1⟩ :=
      LTM.update_success_form db slug body expectedVersion updatedBy now e h harch hver
    obtain ⟨ht2, ht1⟩ :=
      LTM.updateTags_success_form db slug tags expectedVersion updatedBy now e h harch hver
    obtain ⟨ha2, ha1⟩ :=
      LTM.archive_success_form db slug expectedVersion now e h harch hver
    exact ⟨⟨hu2, hu1, rfl⟩, ⟨ht2, ht1, rfl⟩, ⟨ha2, ha1, rfl, rfl⟩⟩
  · intro h
    have h0 := LTM.cas_filter_nil_of_notFound db slug expectedVersion h
    have hre := LTM.readError_notFound db slug expectedVersion h
    refine ⟨?_, ?_, ?_⟩
    · rw [LTM.update_error_form db slug body expectedVersion updatedBy now h0, hre]
    · rw [LTM.updateTags_error_form db slug tags expectedVersion updatedBy now h0, hre]
    · rw [LTM.archive_error_form db slug expectedVersion now h0, hre]
  · intro e t h harch
    have hne : ¬((e.version == expectedVersion) && e.archivedAt.isNone) = true := by
      simp [harch]
    have h0 := LTM.cas_filter_nil_of_mismatch db slug expectedVersion e h hne
    have hre := LTM.readError_archived db slug expectedVersion e t h harch
    refine ⟨?_, ?_, ?_⟩
    · rw [LTM.update_error_form db slug body expectedVersion updatedBy now h0, hre]
    · rw [LTM.updateTags_error_form db slug tags expectedVersion updatedBy now h0, hre]
    · rw [LTM.archive_error_form db slug expectedVersion now h0, hre]
  · intro e h harch hv
    have hne : ¬((e.version == expectedVersion) && e.archivedAt.isNone) = true := by
      simp [hv]
    have h0 := LTM.cas_filter_nil_of_mismatch db slug expectedVersion e h hne
    have hre := LTM.readError_conflict db slug expectedVersion e h harch
    refine ⟨?_, ?_, ?_⟩
    · rw [LTM.update_error_form db slug body expectedVersion updatedBy now h0, hre]
    · rw [LTM.updateTags_error_form db slug tags expectedVersion updatedBy now h0, hre]
    · rw [LTM.archive_error_form db slug expectedVersion now h0, hre]

/-- Witness for C1: on a one-row table at version 1, an `update` with
expected version 1 succeeds and bumps the version to 2; with a missing slug it
reports `NotFound`, on an archived row `Archived`, and with expected version 2
a `Conflict` carrying expected 2 and actual 1 — each leaving the table
unchanged. -/
theorem C1_ltm_cas_mutations_witness :
    ((LTM.update
        [⟨"identity", none, "/identity", "Identity", "old", [], [], 1,
          "main", "main", none, "t0", "t0"⟩]
        "identity" "new" 1 "main" "t1").2 =
      .ok (LTM.applyUpdate "new" 1 "main" "t1"
        ⟨"identity", none, "/identity", "Identity", "old", [], [], 1,
          "main", "main", none, "t0", "t0"⟩)) ∧
    (LTM.applyUpdate "new" 1 "main" "t1"
        ⟨"identity", none, "/identity", "Identity", "old", [], [], 1,
          "main", "main", none, "t0", "t0"⟩).version = 2 ∧
    (LTM.update
        [⟨"identity", none, "/identity", "Identity", "old", [], [], 1,
          "main", "main", none, "t0", "t0"⟩]
        "missing" "new" 1 "main" "t1" =
      ([⟨"identity", none, "/identity", "Identity", "old", [], [], 1,
          "main", "main", none, "t0", "t0"⟩],
       .error (.notFound "missing"))) ∧
    (LTM.update
        [⟨"identity", none, "/identity", "Identity", "old", [], [], 1,
          "main", "main", some "t2", "t0", "t0"⟩]
        "identity" "new" 1 "main" "t1" =
      ([⟨"identity", none, "/identity", "Identity", "old", [], [], 1,
          "main", "main", some "t2", "t0", "t0"⟩],
       .error (.archived "identity"))) ∧
    (LTM.update
        [⟨"identity", none, "/identity", "Identity", "old", [], [], 1,
          "main", "main", none, "t0", "t0"⟩]
        "identity" "new" 2 "main" "t1" =
      ([⟨"identity", none, "/identity", "Identity", "old", [], [], 1,
          "main", "main", none, "t0", "t0"⟩],
       .error (.conflict "identity" 2 1))) := by
  refine ⟨?_, ?_, ?_, ?_, ?_⟩
  · exact (((C1_ltm_cas_mutations
      [⟨"identity", none, "/identity", "Identity", "old", [], [], 1,
        "main", "main", none, "t0", "t0"⟩]
      "identity" "new" [] 1 "main" "t1").1
      ⟨"identity", none, "/identity", "Identity", "old", [], [], 1,
        "main", "main", none, "t0", "t0"⟩
      (by decide) rfl rfl).1).1
  · rfl
  · exact ((C1_ltm_cas_mutations
      [⟨"identity", none, "/identity", "Identity", "old", [], [], 1,
        "main", "main", none, "t0", "t0"⟩]
      "missing" "new" [] 1 "main" "t1").2.1 (by decide)).1
  · exact ((C1_ltm_cas_mutations
      [⟨"identity", none, "/identity", "Identity", "old", [], [], 1,
        "main", "main", some "t2", "t0", "t0"⟩]
      "identity" "new" [] 1 "main" "t1").2.2.1
      ⟨"identity", none, "/identity", "Identity", "old", [], [], 1,
        "main", "main", some "t2", "t0", "t0"⟩
      "t2" (by decide) rfl).1
  · exact ((C1_ltm_cas_mutations
      [⟨"identity", none, "/identity", "Identity", "old", [], [], 1,
        "main", "main", none, "t0", "t0"⟩]
      "identity" "new" [] 2 "main" "t1").2.2.2
      ⟨"identity", none, "/identity", "Identity", "old", [], [], 1,
        "main", "main", none, "t0", "t0"⟩
      (by decide) rfl (by decide)).1

namespace LTM

theorem searchHit_entry (queryLower : String) (pathPrefix : Option String)
    (e : LTMEntry) (r : LTMSearchResult)
    (h : searchHit queryLower pathPrefix e = some r) : r.entry = e := by
  unfold searchHit at h
  split at h
  · dsimp only at h
    split at h
    · injection h with hr
      rw [← hr]
    · exact absurd h (by simp)
  · exact absurd h (by simp)

end LTM

/-! ### Claim C6 -/

/-- **C6.** No LTM query ever returns an archived entry: every entry returned
by `read`, `glob`, `search` or `getChildren` has a null `archived_at`, and
when the only row carrying a slug is archived, `read` returns null for that
slug. -/
theorem C6_archived_never_returned :
    (∀ (db : List LTM.LTMEntry) (slug : String) (e : LTM.LTMEntry),
        LTM.read db slug = some e → e.archivedAt = none) ∧
    (∀ (db : List LTM.LTMEntry) (pattern : String) (maxDepth : Option Nat)
        (e : LTM.LTMEntry),
        e ∈ LTM.glob db pattern maxDepth → e.archivedAt = none) ∧
    (∀ (db : List LTM.LTMEntry) (query : String) (pathPrefix : Option String)
        (r : LTM.LTMSearchResult),
        r ∈ LTM.search db query pathPrefix → r.entry.archivedAt = none) ∧
    (∀ (db : List LTM.LTMEntry) (parentSlug : Option String) (e : LTM.LTMEntry),
        e ∈ LTM.getChildren db parentSlug → e.archivedAt = none) ∧
    (∀ (db : List LTM.LTMEntry) (slug : String) (e : LTM.LTMEntry) (t : String),
        db.filter (fun r => r.slug == slug) = [e] → e.archivedAt = some t →
        LTM.read db slug = none) := by
  refine ⟨?_, ?_, ?_, ?_, ?_⟩
  · intro db slug e h
    unfold LTM.read at h
    rcases hl : db.filter (fun r => r.slug == slug && r.archivedAt.isNone) with
      _ | ⟨x, xs⟩
    · rw [hl] at h; simp at h
    · rw [hl] at h
      simp only [List.head?_cons, Option.some.injEq] at h
      have hx : x ∈ db.filter (fun r => r.slug == slug && r.archivedAt.isNone) := by
        rw [hl]; exact List.mem_cons_self _ _
      have hpred := (List.mem_filter.mp hx).2
      rw [Bool.and_eq_true] at hpred
      rw [← h]
      exact Option.isNone_iff_eq_none.mp hpred.2
  · intro db pattern maxDepth e h
    unfold LTM.glob at h
    have h1 := (List.mem_filter.mp h).1
    have h2 := (mem_sortBy _ e _).mp h1
    have hpred := (List.mem_filter.mp h2).2
    rw [Bool.and_eq_true] at hpred
    exact Option.isNone_iff_eq_none.mp hpred.2
  · intro db query pathPrefix r h
    unfold LTM.search at h
    have h1 := (mem_sortBy _ r _).mp h
    obtain ⟨a, ha, hfa⟩ := List.mem_filterMap.mp h1
    have haarch : a.archivedAt = none :=
      Option.isNone_iff_eq_none.mp (List.mem_filter.mp ha).2
    rw [LTM.searchHit_entry query.toLower pathPrefix a r hfa]
    exact haarch
  · intro db parentSlug e h
    unfold LTM.getChildren at h
    cases parentSlug with
    | none =>
        have h1 := (mem_sortBy _ e _).mp h
        have hpred := (List.mem_filter.mp h1).2
        rw [Bool.and_eq_true] at hpred
        exact Option.isNone_iff_eq_none.mp hpred.2
    | some p =>
        have h1 := (mem_sortBy _ e _).mp h
        have hpred := (List.mem_filter.mp h1).2
        rw [Bool.and_eq_true] at hpred
        exact Option.isNone_iff_eq_none.mp hpred.2
  · intro db slug e t h harch
    unfold LTM.read
    have hfs := filter_and_single (fun r => r.slug == slug)
      (fun r => r.archivedAt.isNone) e db h
    rw [hfs]
    simp [harch]

/-- Witness for C6: on a concrete table whose only `identity` row is
archived, `read "identity"` returns none; and the entry returned by a
concrete successful `read` has a null `archived_at`. -/
theorem C6_archived_never_returned_witness :
    LTM.read
        [⟨"identity", none, "/identity", "Identity", "old", [], [], 2,
          "main", "main", some "t2", "t0", "t1"⟩]
        "identity" = none ∧
    (⟨"behavior", none, "/behavior", "Behavior", "b", [], [], 1,
        "main", "main", none, "t0", "t0"⟩ : LTM.LTMEntry).archivedAt = none := by
  constructor
  · exact C6_archived_never_returned.2.2.2.2
      [⟨"identity", none, "/identity", "Identity", "old", [], [], 2,
        "main", "main", some "t2", "t0", "t1"⟩]
      "identity"
      ⟨"identity", none, "/identity", "Identity", "old", [], [], 2,
        "main", "main", some "t2", "t0", "t1"⟩
      "t2" (by decide) rfl
  · exact C6_archived_never_returned.1
      [⟨"behavior", none, "/behavior", "Behavior", "b", [], [], 1,
        "main", "main", none, "t0", "t0"⟩]
      "behavior"
      ⟨"behavior", none, "/behavior", "Behavior", "b", [], [], 1,
        "main", "main", none, "t0", "t0"⟩
      (by decide)

/-! ### Claim C3 -/

/-- **C3.** Every summary inserted by the compaction agent has
`startId ≤ endId`, has both ids drawn from `validIds`, and has order equal to
1 plus the maximum order of the existing summaries whose range lies inside
`[startId, endId]` (order 1 when none is subsumed, as `maxSubsumedOrder` is 0
then); a `create_summary` call whose `startId` or `endId` is outside
`validIds` (checked in that order), or with `startId > endId`, is answered
with an error tool result and inserts nothing. -/
theorem C3_create_summary_validation (state : Compaction.TemporalState)
    (validIds : List String) (startId endId narrative : String)
    (keyObservations : List String) (newId now : String) :
    (startId ∈ validIds → endId ∈ validIds → jsGt startId endId = false →
      (Compaction.executeCompactionTool
          (.createSummary startId endId narrative keyObservations)
          state validIds newId now) =
        (⟨"Created order-"
            ++ toString (Compaction.maxSubsumedOrder state.summaries startId endId + 1)
            ++ " summary covering " ++ startId ++ " to " ++ endId ++ " (~"
            ++ toString (Compaction.estimateSummaryTokens narrative keyObservations [])
            ++ " tokens).", false, true⟩,
         { state with summaries := state.summaries ++
            [⟨newId, Compaction.maxSubsumedOrder state.summaries startId endId + 1,
              startId, endId, narrative, keyObservations, [],
              Compaction.estimateSummaryTokens narrative keyObservations [], now⟩] }) ∧
      jsLe startId endId = true) ∧
    (startId ∉ validIds →
      Compaction.executeCompactionTool
          (.createSummary startId endId narrative keyObservations)
          state validIds newId now =
        (⟨"Error: startId \"" ++ startId
            ++ "\" is not a visible ID. Use only IDs shown in the conversation history.",
          false, false⟩, state)) ∧
    (startId ∈ validIds → endId ∉ validIds →
      Compaction.executeCompactionTool
          (.createSummary startId endId narrative keyObservations)
          state validIds newId now =
        (⟨"Error: endId \"" ++ endId
            ++ "\" is not a visible ID. Use only IDs shown in the conversation history.",
          false, false⟩, state)) ∧
    (startId ∈ validIds → endId ∈ validIds → jsGt startId endId = true →
      Compaction.executeCompactionTool
          (.createSummary startId endId narrative keyObservations)
          state validIds newId now =
        (⟨"Error: startId must be <= endId (got " ++ startId ++ " > " ++ endId ++ ")",
          false, false⟩, state)) := by
  refine ⟨?_, ?_, ?_, ?_⟩
  · intro h1 h2 h3
    have g1 : ¬ (startId ∉ validIds) := by simpa using h1
    have g2 : ¬ (endId ∉ validIds) := by simpa using h2
    have g3 : ¬ (jsGt startId endId = true) := by simp [h3]
    constructor
    · simp only [Compaction.executeCompactionTool, if_neg g1, if_neg g2, if_neg g3]
    · unfold jsLe jsGt at *
      rw [Bool.not_eq_true] at g3
      rw [g3]
      rfl
  · intro hb
    simp only [Compaction.executeCompactionTool, if_pos hb]
  · intro h1 hb
    have g1 : ¬ (startId ∉ validIds) := by simpa using h1
    simp only [Compaction.executeCompactionTool, if_neg g1, if_pos hb]
  · intro h1 h2 hb
    have g1 : ¬ (startId ∉ validIds) := by simpa using h1
    have g2 : ¬ (endId ∉ validIds) := by simpa using h2
    simp only [Compaction.executeCompactionTool, if_neg g1, if_neg g2, if_pos hb]

/-- Witness for C3: with valid ids A and B and one existing order-1 summary
covering [A, B], `create_summary A B` inserts an order-2 summary; with the
invalid startId Z nothing is inserted and the error tool result is returned. -/
theorem C3_create_summary_validation_witness :
    Compaction.executeCompactionTool (.createSummary "A" "B" "nn" [])
        ⟨[], [⟨"s0", 1, "A", "B", "old", [], [], 5, "t0"⟩]⟩ ["A", "B"] "s1" "t1" =
      (⟨"Created order-2 summary covering A to B (~1 tokens).", false, true⟩,
       ⟨[], [⟨"s0", 1, "A", "B", "old", [], [], 5, "t0"⟩,
             ⟨"s1", 2, "A", "B", "nn", [], [], 1, "t1"⟩]⟩) ∧
    Compaction.executeCompactionTool (.createSummary "Z" "B" "nn" [])
        ⟨[], []⟩ ["A", "B"] "s1" "t1" =
      (⟨"Error: startId \"Z\" is not a visible ID. Use only IDs shown in the conversation history.",
        false, false⟩, ⟨[], []⟩) := by
  constructor
  · exact ((C3_create_summary_validation
      ⟨[], [⟨"s0", 1, "A", "B", "old", [], [], 5, "t0"⟩]⟩ ["A", "B"]
      "A" "B" "nn" [] "s1" "t1").1 (by decide) (by decide) (by decide)).1.trans
      (by decide)
  · exact ((C3_create_summary_validation ⟨[], []⟩ ["A", "B"]
      "Z" "B" "nn" [] "s1" "t1").2.1 (by decide)).trans (by decide)

namespace Compaction

theorem processCalls_done_mono (validIds : List String) :
    ∀ (calls : List CompactionToolCall) (st : TemporalState)
      (ids : List String) (created : Nat),
      (processCalls validIds calls st ids created true).2.2.2 = true := by
  intro calls
  induction calls with
  | nil => intros; rfl
  | cons c rest ih =>
      intro st ids created
      unfold processCalls
      rcases he : executeCompactionTool c st validIds
        (ids.headD "summary_fallback") "now" with ⟨res, st'⟩
      simp only [he, Bool.true_or]
      exact ih st' _ _

theorem processCalls_done_of_mem (validIds : List String) (reason : String) :
    ∀ (calls : List CompactionToolCall) (st : TemporalState)
      (ids : List String) (created : Nat) (done : Bool),
      (CompactionToolCall.finishCompaction reason) ∈ calls →
      (processCalls validIds calls st ids created done).2.2.2 = true := by
  intro calls
  induction calls with
  | nil => intro _ _ _ _ h; cases h
  | cons c rest ih =>
      intro st ids created done h
      rcases List.mem_cons.mp h with hc | hc
      · subst hc
        unfold processCalls
        simp only [executeCompactionTool, Bool.or_true]
        exact processCalls_done_mono validIds rest st _ _
      · unfold processCalls
        rcases he : executeCompactionTool c st validIds
          (ids.headD "summary_fallback") "now" with ⟨res, st'⟩
        simp only [he]
        exact ih st' _ _ _ hc

end Compaction

namespace Compaction

theorem innerLoop_count_le (script : Nat → ModelResponse)
    (validIds : List String) :
    ∀ (fuel : Nat) (ls : LoopState),
      (innerLoop script validIds fuel ls).2 ≤ fuel := by
  intro fuel
  induction fuel with
  | zero => intro ls; simp [innerLoop]
  | succ n ih =>
      intro ls
      unfold innerLoop
      rcases hr : (script ls.calls).toolCalls with _ | ⟨c, cs⟩
      · simp [hr]
      · simp only [hr]
        split
        · simp
        · simp only []
          exact Nat.succ_le_succ (ih _)

theorem outerLoop_count_le (cfg : Nat) (script : Nat → ModelResponse) :
    ∀ (fuel : Nat) (ls : LoopState),
      (outerLoop cfg script fuel ls).2 ≤ fuel := by
  intro fuel
  induction fuel with
  | zero => intro ls; simp [outerLoop]
  | succ n ih =>
      intro ls
      unfold outerLoop
      by_cases h : estimateUncompactedTokens ls.temporal ≤ cfg
      · simp [h]
      · rw [if_neg h]
        simp only []
        exact Nat.succ_le_succ (ih _)

theorem outerLoop_stop_on_target (cfg : Nat) (script : Nat → ModelResponse)
    (fuel : Nat) (ls : LoopState)
    (h : estimateUncompactedTokens ls.temporal ≤ cfg) :
    outerLoop cfg script (fuel + 1) ls = (ls, 1) := by
  unfold outerLoop
  rw [if_pos h]

theorem innerLoop_stop_on_finish (script : Nat → ModelResponse)
    (validIds : List String) (fuel : Nat) (ls : LoopState) (reason : String)
    (h : (CompactionToolCall.finishCompaction reason) ∈
      (script ls.calls).toolCalls) :
    (innerLoop script validIds (fuel + 1) ls).2 = 1 := by
  unfold innerLoop
  rcases hr : (script ls.calls).toolCalls with _ | ⟨c, cs⟩
  · rw [hr] at h; cases h
  · simp only [hr]
    rw [hr] at h
    have hdone := processCalls_done_of_mem validIds reason (c :: cs)
      ls.temporal ls.ids 0 false h
    split
    · rfl
    · next hnd =>
        exact absurd hdone hnd

end Compaction

/-! ### Claim C5 -/

/-- **C5 (amended).** The compaction outer loop runs at most
`MAX_COMPACTION_TURNS = 10` turns and stops early only when the
uncompacted-token estimate is at or below the target; `finish_compaction`
terminates only the inner per-turn loop, which performs at most
`maxInnerTurns = 5` iterations and stops after the iteration whose response
calls `finish_compaction`. -/
theorem C5_loop_termination_bounds :
    (∀ (cfg : Compaction.CompactionConfig) (state : Compaction.TemporalState)
        (script : Nat → Compaction.ModelResponse) (ids : List String),
        (Compaction.runCompaction cfg state script ids).1.turnsUsed ≤
          Compaction.MAX_COMPACTION_TURNS) ∧
    (∀ (script : Nat → Compaction.ModelResponse) (validIds : List String)
        (ls : Compaction.LoopState),
        (Compaction.innerLoop script validIds Compaction.maxInnerTurns ls).2 ≤
          Compaction.maxInnerTurns) ∧
    (∀ (script : Nat → Compaction.ModelResponse) (validIds : List String)
        (fuel : Nat) (ls : Compaction.LoopState) (reason : String),
        (Compaction.CompactionToolCall.finishCompaction reason) ∈
            (script ls.calls).toolCalls →
        (Compaction.innerLoop script validIds (fuel + 1) ls).2 = 1) ∧
    (∀ (cfg : Nat) (script : Nat → Compaction.ModelResponse) (fuel : Nat)
        (ls : Compaction.LoopState),
        Compaction.estimateUncompactedTokens ls.temporal ≤ cfg →
        Compaction.outerLoop cfg script (fuel + 1) ls = (ls, 1)) := by
  refine ⟨?_, ?_, ?_, ?_⟩
  · intro cfg state script ids
    unfold Compaction.runCompaction
    by_cases h : Compaction.estimateUncompactedTokens state ≤ cfg.compactionTarget
    · rw [if_pos h]
      simp [Compaction.MAX_COMPACTION_TURNS]
    · rw [if_neg h]
      simp only []
      exact Compaction.outerLoop_count_le _ _ _ _
  · intro script validIds ls
    exact Compaction.innerLoop_count_le script validIds _ ls
  · intro script validIds fuel ls reason h
    exact Compaction.innerLoop_stop_on_finish script validIds fuel ls reason h
  · intro cfg script fuel ls h
    exact Compaction.outerLoop_stop_on_target cfg script fuel ls h

set_option maxRecDepth 40000 in
/-- Counterexample for C5 as stated: a run over a single one-token message
with target 0, whose model calls `finish_compaction` in its very first
response, still uses all 10 outer turns — the outer loop does not terminate
when the agent calls `finish_compaction`. -/
theorem C5_outer_loop_ignores_finish_counterexample :
    (Compaction.runCompaction ⟨80000, 0⟩ ⟨[⟨"A", "user", "hi", 1, "t"⟩], []⟩
        (fun _ => ⟨none, [.finishCompaction "nothing to do"], 5, 2⟩)
        []).1.turnsUsed = 10 ∧
    ((fun _ => (⟨none, [.finishCompaction "nothing to do"], 5, 2⟩ :
        Compaction.ModelResponse)) 0).toolCalls =
      [.finishCompaction "nothing to do"] := by
  exact ⟨by decide, rfl⟩

set_option maxRecDepth 40000 in
/-- Witness for C5: the bounds applied at a concrete run (turns used is at
most 10), at a concrete inner loop whose first response finishes (exactly one
inner iteration), and at a concrete store already at the target (the outer
loop stops immediately). -/
theorem C5_loop_termination_bounds_witness :
    (Compaction.runCompaction ⟨80000, 0⟩ ⟨[⟨"A", "user", "hi", 1, "t"⟩], []⟩
        (fun _ => ⟨none, [.finishCompaction "nothing to do"], 5, 2⟩)
        []).1.turnsUsed ≤ Compaction.MAX_COMPACTION_TURNS ∧
    (Compaction.innerLoop
        (fun _ => ⟨none, [.finishCompaction "nothing to do"], 5, 2⟩) ["A"]
        (4 + 1) ⟨⟨[⟨"A", "user", "hi", 1, "t"⟩], []⟩, 0, [], 0, 0, 0⟩).2 = 1 ∧
    Compaction.outerLoop 5
        (fun _ => ⟨none, [.finishCompaction "nothing to do"], 5, 2⟩)
        (9 + 1) ⟨⟨[⟨"A", "user", "hi", 1, "t"⟩], []⟩, 0, [], 0, 0, 0⟩ =
      (⟨⟨[⟨"A", "user", "hi", 1, "t"⟩], []⟩, 0, [], 0, 0, 0⟩, 1) := by
  refine ⟨?_, ?_, ?_⟩
  · exact C5_loop_termination_bounds.1 ⟨80000, 0⟩
      ⟨[⟨"A", "user", "hi", 1, "t"⟩], []⟩
      (fun _ => ⟨none, [.finishCompaction "nothing to do"], 5, 2⟩) []
  · exact C5_loop_termination_bounds.2.2.1
      (fun _ => ⟨none, [.finishCompaction "nothing to do"], 5, 2⟩) ["A"] 4
      ⟨⟨[⟨"A", "user", "hi", 1, "t"⟩], []⟩, 0, [], 0, 0, 0⟩
      "nothing to do" (by decide)
  · exact C5_loop_termination_bounds.2.2.2 5
      (fun _ => ⟨none, [.finishCompaction "nothing to do"], 5, 2⟩) 9
      ⟨⟨[⟨"A", "user", "hi", 1, "t"⟩], []⟩, 0, [], 0, 0, 0⟩ (by decide)

/-! ### Claim C4 -/

/-- **C4 (amended).** A compaction run that ends at or below the compaction
target — in particular the early-exit no-op run — has
`tokensAfter ≤ tokensBefore`; the bound does not hold for arbitrary runs (see
the counterexample: a run that stops only by exhausting its turns can end
above `tokensBefore`). -/
theorem C4_tokens_after_le_when_target_reached
    (cfg : Compaction.CompactionConfig) (state : Compaction.TemporalState)
    (script : Nat → Compaction.ModelResponse) (ids : List String)
    (h : (Compaction.runCompaction cfg state script ids).1.tokensAfter ≤
      cfg.compactionTarget) :
    (Compaction.runCompaction cfg state script ids).1.tokensAfter ≤
      (Compaction.runCompaction cfg state script ids).1.tokensBefore := by
  unfold Compaction.runCompaction at h ⊢
  by_cases h0 : Compaction.estimateUncompactedTokens state ≤ cfg.compactionTarget
  · rw [if_pos h0] at h ⊢
  · rw [if_neg h0] at h ⊢
    simp only [] at h ⊢
    omega

set_option maxRecDepth 40000 in
/-- Counterexample for C4 as stated: over a store holding one one-token
message, a run whose model creates one summary with a 400-character narrative
(estimated at 100 tokens) covering that message, then finishes, ends with
`tokensAfter = 100 > 1 = tokensBefore`. -/
theorem C4_tokens_after_counterexample :
    ¬ ((Compaction.runCompaction ⟨80000, 0⟩ ⟨[⟨"A", "user", "hi", 1, "t"⟩], []⟩
          (fun n =>
            if n = 0 then
              ⟨none, [.createSummary "A" "A" (String.mk (List.replicate 400 'x')) []], 7, 3⟩
            else if n = 1 then ⟨none, [.finishCompaction "done"], 5, 2⟩
            else ⟨none, [], 1, 1⟩)
          ["summary_1"]).1.tokensAfter ≤
        (Compaction.runCompaction ⟨80000, 0⟩ ⟨[⟨"A", "user", "hi", 1, "t"⟩], []⟩
          (fun n =>
            if n = 0 then
              ⟨none, [.createSummary "A" "A" (String.mk (List.replicate 400 'x')) []], 7, 3⟩
            else if n = 1 then ⟨none, [.finishCompaction "done"], 5, 2⟩
            else ⟨none, [], 1, 1⟩)
          ["summary_1"]).1.tokensBefore) := by
  decide

/-- Witness for C4: a concrete run that ends at the target (the early-exit
no-op over a one-token store with target 5) satisfies
`tokensAfter ≤ tokensBefore`. -/
theorem C4_tokens_after_le_when_target_reached_witness :
    (Compaction.runCompaction ⟨80000, 5⟩ ⟨[⟨"A", "user", "hi", 1, "t"⟩], []⟩
        (fun _ => ⟨none, [], 1, 1⟩) []).1.tokensAfter ≤
      (Compaction.runCompaction ⟨80000, 5⟩ ⟨[⟨"A", "user", "hi", 1, "t"⟩], []⟩
        (fun _ => ⟨none, [], 1, 1⟩) []).1.tokensBefore :=
  C4_tokens_after_le_when_target_reached ⟨80000, 5⟩
    ⟨[⟨"A", "user", "hi", 1, "t"⟩], []⟩ (fun _ => ⟨none, [], 1, 1⟩) []
    (by decide)

/-! ### Claim C10 -/

/-- **C10.** When `estimateUncompactedTokens` is already at or below
`compactionTarget`, `runCompaction` is a no-op at its interface: it makes no
model calls (the call counter of the final context is 0 and the store and id
supply are untouched), creates no summaries, reports `turnsUsed = 0` and zero
token usage, and returns `tokensAfter` equal to `tokensBefore`. -/
theorem C10_early_exit_noop (cfg : Compaction.CompactionConfig)
    (state : Compaction.TemporalState)
    (script : Nat → Compaction.ModelResponse) (ids : List String)
    (h : Compaction.estimateUncompactedTokens state ≤ cfg.compactionTarget) :
    Compaction.runCompaction cfg state script ids =
      (⟨0, Compaction.estimateUncompactedTokens state,
        Compaction.estimateUncompactedTokens state, 0, 0, 0⟩,
       ⟨state, 0, ids, 0, 0, 0⟩) := by
  unfold Compaction.runCompaction
  rw [if_pos h]

/-- Witness for C10: the early exit evaluated on a one-token store with
target 5. -/
theorem C10_early_exit_noop_witness :
    Compaction.runCompaction ⟨80000, 5⟩ ⟨[⟨"A", "user", "hi", 1, "t"⟩], []⟩
        (fun _ => ⟨none, [], 1, 1⟩) [] =
      (⟨0, 1, 1, 0, 0, 0⟩,
       ⟨⟨[⟨"A", "user", "hi", 1, "t"⟩], []⟩, 0, [], 0, 0, 0⟩) :=
  (C10_early_exit_noop ⟨80000, 5⟩ ⟨[⟨"A", "user", "hi", 1, "t"⟩], []⟩
    (fun _ => ⟨none, [], 1, 1⟩) [] (by decide)).trans (by decide)

namespace Server

theorem foldl_enqueue (batch : List UserMsg) :
    ∀ q : List UserMsg, batch.foldl enqueueMessage q = q ++ batch := by
  induction batch with
  | nil => intro q; simp
  | cons m t ih =>
      intro q
      simp only [List.foldl_cons]
      rw [ih (enqueueMessage q m)]
      simp [enqueueMessage]

theorem processQueue_id : ∀ q : List UserMsg, processQueue q = q := by
  intro q
  induction q with
  | nil => rfl
  | cons m t ih => simp [processQueue, ih]

theorem runningTurn_conservation :
    ∀ (phases : List (List UserMsg)) (q : List UserMsg),
      (runningTurn phases q).1.flatten ++ (runningTurn phases q).2 =
        q ++ phases.flatten := by
  intro phases
  induction phases with
  | nil => intro q; simp [runningTurn]
  | cons batch rest ih =>
      intro q
      unfold runningTurn
      by_cases hq : (batch.foldl enqueueMessage q).isEmpty
      · simp only [drainQueueForInjection, if_pos hq]
        have he : batch.foldl enqueueMessage q = [] :=
          List.isEmpty_iff.mp hq
        rw [foldl_enqueue] at he
        have hn : q = [] ∧ batch = [] := List.append_eq_nil.mp he
        obtain ⟨hq0, hb⟩ := hn
        subst hq0; subst hb
        simpa using ih []
      · simp only [drainQueueForInjection, if_neg hq]
        simp only [List.flatten_cons]
        rw [List.append_assoc, ih []]
        rw [foldl_enqueue]
        simp

end Server

/-! ### Claim C2 -/

/-- **C2 (amended).** In the NDJSON server, a user message received while a
turn is running is enqueued (never rejected) and is either injected into the
running turn at a model-call boundary or processed as a following turn: over
any turn trace, the concatenation of the injected batches followed by the
FIFO post-turn queue processing is exactly the initially queued messages
followed by all arrivals, in order.  (In the JSON-RPC listener, by contrast,
a `run` request arriving while one is running is rejected — see the
counterexample.) -/
theorem C2_queue_injection_conservation
    (q0 : List Server.UserMsg) (phases : List (List Server.UserMsg))
    (tail : List Server.UserMsg) :
    (Server.runningTurn phases q0).1.flatten ++
        Server.processQueue
          (List.foldl Server.enqueueMessage (Server.runningTurn phases q0).2 tail) =
      q0 ++ phases.flatten ++ tail := by
  rw [Server.foldl_enqueue tail, Server.processQueue_id]
  rw [← List.append_assoc]
  rw [Server.runningTurn_conservation phases q0]

/-- Counterexample for C2 as stated: in the JSON-RPC listener, a `run`
request received while a request is running is answered with the
`ALREADY_RUNNING` error (-32001) — the message is rejected rather than
queued or injected; the gate starts a run only when idle. -/
theorem C2_jsonrpc_rejects_while_running_counterexample :
    Server.handleRunGate (some "request-1") =
        .rejected Server.ALREADY_RUNNING "A request is already running" ∧
      Server.handleRunGate none = .started :=
  ⟨rfl, rfl⟩

/-! ### Claim C7 -/

/-- **C7.** When a model tool call fails schema validation or names an
unknown tool, the repair function substitutes a synthetic call to the
internal tool `__invalid_tool_call__`, preserving the call id and packing the
attempted tool name, the attempted arguments as JSON and the validation
error; executing that tool is total (it returns a plain string, becoming an
ordinary tool result) and its message contains all three pieces. -/
theorem C7_invalid_tool_call_redirection
    (toolName toolCallId argsJson errorMessage : String) :
    (Provider.repairToolCall toolName toolCallId argsJson errorMessage).toolName =
        Provider.INVALID_TOOL_CALL ∧
    (Provider.repairToolCall toolName toolCallId argsJson errorMessage).toolCallId =
        toolCallId ∧
    (Provider.repairToolCall toolName toolCallId argsJson errorMessage).args =
        ⟨toolName, argsJson, errorMessage⟩ ∧
    ∃ p₁ p₂ p₃ p₄ : String,
      Provider.invalidToolCallExecute ⟨toolName, argsJson, errorMessage⟩ =
        p₁ ++ toolName ++ p₂ ++ argsJson ++ p₃ ++ errorMessage ++ p₄ := by
  refine ⟨rfl, rfl, rfl, ?_⟩
  exact ⟨"Error: Invalid tool call to \"",
    "\"\n\nYou provided these arguments:\n", "\n\nValidation error:\n",
    "\n\nPlease check the tool parameter schema and try again with correct arguments.",
    rfl⟩

/-! ### Claim C8 -/

/-- **C8 (amended).** A tool execution error is caught and returned as a
tool-result string and never terminates the turn: a tool executed through the
provider wrapper yields `Error executing tool "X": <message>`, while a tool
dispatched by the agent loop `try`/`catch` yields `Error: <message>`; in both
layers a successful execution passes the result through, and the dispatch
loop produces exactly one result per call. -/
theorem C8_tool_error_containment :
    (∀ name result : String,
        Provider.wrapToolExecute name (.ok result) = result) ∧
    (∀ name message : String,
        Provider.wrapToolExecute name (.error message) =
          "Error executing tool \"" ++ name ++ "\": " ++ message) ∧
    (∀ result : String, AgentLoop.dispatchOutcome (.ok result) = result) ∧
    (∀ message : String,
        AgentLoop.dispatchOutcome (.error message) = "Error: " ++ message) ∧
    (∀ calls : List (String × Except String String),
        (AgentLoop.dispatchToolCalls calls).length = calls.length) :=
  ⟨fun _ _ => rfl, fun _ _ => rfl, fun _ => rfl, fun _ => rfl,
   fun calls => List.length_map calls _⟩

/-- Counterexample for C8 as stated: the agent loop catch around
`executeTool` produces `Error: boom` for a throwing `bash` tool, not the
claimed format `Error executing tool "bash": boom`. -/
theorem C8_agent_loop_error_format_counterexample :
    AgentLoop.dispatchOutcome (.error "boom") = "Error: boom" ∧
      "Error: boom" ≠ "Error executing tool \"bash\": boom" :=
  ⟨rfl, by decide⟩

/-! ### Claim C9 -/

set_option maxRecDepth 40000 in
/-- **C9 (code evaluated at the failing input).** `buildSystemPrompt` in
src/agent/index.ts renders the conversation-history section of the system
prompt without any id exposure: for a store holding one user message with id
`message_01TEST`, the section is exactly `[User]: hi` between the history
tags — it contains no `[id:` prefix, no occurrence of the message id, and no
`[summary from:` line, contradicting the claim (and the documentation of
compaction-agent.ts, which relies on those ids being visible). -/
theorem C9_history_renders_without_ids :
    AgentPrompt.conversationHistorySection
        [⟨"message_01TEST", "user", "hi", 1, "t"⟩] 64000 =
      "<conversation_history>\nThe following is your memory of previous interactions with this user:\n\n[User]: hi\n</conversation_history>\n\n" ∧
    strIncludes
        (AgentPrompt.conversationHistorySection
          [⟨"message_01TEST", "user", "hi", 1, "t"⟩] 64000) "[id:" = false ∧
    strIncludes
        (AgentPrompt.conversationHistorySection
          [⟨"message_01TEST", "user", "hi", 1, "t"⟩] 64000) "message_01TEST" =
      false ∧
    strIncludes
        (AgentPrompt.conversationHistorySection
          [⟨"message_01TEST", "user", "hi", 1, "t"⟩] 64000) "[summary from:" =
      false := by
  refine ⟨by decide, by decide, by decide, by decide⟩
